import Mathlib

/-!
Shallow embedding of the brainfuck interpreter (src/src/lib.rs, src/src/err.rs,
src/src/main.rs) and proofs about its loop engine, memory model, cancellation
and error handling.

Modelling conventions:
* `Wrapping<u8>` cells are `Nat` values taken modulo 256 at each write.
* `usize` arithmetic is `Nat` with explicit reduction modulo `USIZE = 2 ^ 64`
  where the source uses `overflowing_add` / `overflowing_sub`.
* The `sync_channel(0)` stop channel inside `State` is modelled by a `stops`
  counter: the number of pending (rendezvous-blocked) `send(())` calls.
  `try_recv` succeeds exactly when `stops > 0` and consumes one message.
* The byte source, sink and buffered reader (`InOuter`) are byte lists; source
  read errors (which `run_with_state` maps to `Error::IoError`) are not
  produced by a list source, and `read_exact` on an exhausted list input fails
  like the `UnexpectedEof` it raises in the source.
* Since `run_command` recurses through replayed loop bodies and may diverge,
  the interpreter functions take a fuel argument; `none` means fuel ran out,
  `some` is the behaviour of the Rust code.
* Errors abort the computation; because the Rust functions take `&mut State`,
  the state at the moment of failure persists, so outcomes carry the final
  state and I/O in the failure case as well.
-/

namespace BF

/-- The eight opcodes of `Command` (src/src/lib.rs lines 13-24). -/
inductive Command where
  | PtrIncr
  | PtrDecr
  | Incr
  | Decr
  | Out
  | In
  | LoopBegin
  | LoopEnd
deriving DecidableEq, Repr

/-- Source `Command::from_byte` (src/src/lib.rs lines 45-57): decode one source byte,
`none` for non-instruction (comment) bytes. -/
def Command.from_byte (b : Nat) : Option Command :=
  if b = 43 then some .Incr           -- b'+'
  else if b = 45 then some .Decr      -- b'-'
  else if b = 62 then some .PtrIncr   -- b'>'
  else if b = 60 then some .PtrDecr   -- b'<'
  else if b = 46 then some .Out       -- b'.'
  else if b = 44 then some .In        -- b','
  else if b = 91 then some .LoopBegin -- b'['
  else if b = 93 then some .LoopEnd   -- b']'
  else none

/-- The engine's error enum. The `err.rs` file in the tree is a stale revision
(it references a `crate::chars` module that no longer exists and lacks the
variants `lib.rs` constructs); the variant set below is the one the rest of the
crate compiles against, read off the exhaustive `match` in `main` (src/src/main.rs
lines 96-104) and the constructors used in src/src/lib.rs. `IoError` wraps an
`std::w::Error` payload in the source, elided here. -/
inductive Error where
  | Stopped
  | OutOfBounds
  | NoLoopStarted
  | UnendedLoop
  | CellPointerOverflow
  | IoError
deriving DecidableEq, Repr, Fintype

/-- Source `CellsLimit` (src/src/lib.rs lines 60-64): optional cell-count limit paired
with a wrap flag; the `NonZeroUsize` bound becomes a positivity hypothesis in
the theorems. -/
structure CellsLimit where
  limit : Option (Nat × Bool)
deriving DecidableEq, Repr

/-- Interpreter state (src/src/lib.rs lines 87-94). `stops` models the pending
messages of the `sync_channel(0)` stop channel. The `u16` field `loop_nesting`
is modelled as `Nat` (exceeding `u16::MAX` opens panics in the source rather
than wrapping silently in checked builds). -/
structure State where
  cells : List Nat
  cells_limit : CellsLimit
  cell_pointer : Nat
  ongoing_loops : List Command
  loop_nesting : Nat
  stops : Nat
deriving DecidableEq, Repr

/-- Source `State::default` (src/src/lib.rs lines 96-108): one zero cell, no limit,
pointer at 0, no buffered loop, nesting 0, empty channel. -/
def State.default : State :=
  { cells := [0],
    cells_limit := ⟨none⟩,
    cell_pointer := 0,
    ongoing_loops := [],
    loop_nesting := 0,
    stops := 0 }

/-- Source `State::new` (src/src/lib.rs lines 111-117). -/
def State.new (l : CellsLimit) : State :=
  { State.default with cells_limit := l }

/-- Number of values of `usize` on a 64-bit target. -/
def USIZE : Nat := 2 ^ 64

/-- Source `State::get_cur` (src/src/lib.rs lines 118-120): current cell, defaulting
to 0 beyond the allocated prefix. -/
def State.get_cur (s : State) : Nat :=
  s.cells.getD s.cell_pointer 0

/-- The `Vec::resize` step of `State::get_mut_cur` (src/src/lib.rs lines
121-128): extend with zeros so that index `p` exists. -/
def ensure_len (cells : List Nat) (p : Nat) : List Nat :=
  if cells.length ≤ p then cells ++ List.replicate (p + 1 - cells.length) 0 else cells

/-- Writing through `State::get_mut_cur`: grow the tape to the pointer, then
update the pointed-at cell with `f`. -/
def State.modify_cur (s : State) (f : Nat → Nat) : State :=
  let cells := ensure_len s.cells s.cell_pointer
  { s with cells := cells.set s.cell_pointer (f (cells.getD s.cell_pointer 0)) }

/-- Source `try_recv` on the stop channel: succeeds exactly when a stop request is
pending, consuming it (mpsc receive removes the message). -/
def State.try_recv (s : State) : Bool × State :=
  if 0 < s.stops then (true, { s with stops := s.stops - 1 }) else (false, s)

/-- Source `State::pointer_add` (src/src/lib.rs lines 129-144). `overflowing_add(1)`
on `usize` becomes reduction modulo `USIZE` plus an overflow flag; the match
arms keep the source's order: wrap limits ignore overflow, then overflow fails,
then no limit moves, then strict limits bounds-check. -/
def State.pointer_add (s : State) : Except Error State :=
  let cp := (s.cell_pointer + 1) % USIZE
  let overflow := USIZE ≤ s.cell_pointer + 1
  match s.cells_limit.limit with
  | some (lim, true) => .ok { s with cell_pointer := cp % lim }
  | none =>
    if overflow then .error .CellPointerOverflow
    else .ok { s with cell_pointer := cp }
  | some (lim, false) =>
    if overflow then .error .CellPointerOverflow
    else if lim ≤ cp then .error .CellPointerOverflow
    else .ok { s with cell_pointer := cp }

/-- Source `State::pointer_sub` (src/src/lib.rs lines 145-159). `overflowing_sub(1)`
overflows exactly at pointer 0; then a wrapping limit jumps to `limit - 1`
(`get_limit_if_wrap`), anything else fails. -/
def State.pointer_sub (s : State) : Except Error State :=
  if s.cell_pointer = 0 then
    match s.cells_limit.limit with
    | some (lim, true) => .ok { s with cell_pointer := lim - 1 }
    | _ => .error .CellPointerOverflow
  else
    .ok { s with cell_pointer := s.cell_pointer - 1 }

/-- Source `State::evaluate` (src/src/lib.rs lines 172-182): succeeds with the tape
contents iff no loop is still open. (The `CellsIntoIter` wrapper, which only
adds a reported size and trailing-zero trimming, is abstracted to the list.) -/
def State.evaluate (s : State) : Except Error (List Nat) :=
  if s.loop_nesting = 0 then .ok s.cells else .error .UnendedLoop

/-- The I/O port `InOuter` (src/src/lib.rs lines 290-303): `o` is the bytes
written so far, `i` the bytes still unread. -/
structure InOuter where
  o : List Nat
  i : List Nat
deriving DecidableEq, Repr

/-- Result of a dispatch: success or an error, in both cases with the state and
I/O as left behind through the `&mut` references. -/
inductive Outcome where
  | ok : State → InOuter → Outcome
  | fail : Error → State → InOuter → Outcome
deriving DecidableEq, Repr

/-- The state component of an outcome. -/
def Outcome.state : Outcome → State
  | .ok s _ => s
  | .fail _ s _ => s

/-- The `for &cmd in &cmds` replay of a buffered loop body (src/src/lib.rs
lines 343-345), parametrised by the dispatcher `rc` used for each command;
`?` propagation stops at the first failure. -/
def run_body (rc : State → Command → InOuter → Option Outcome) :
    List Command → State → InOuter → Option Outcome
  | [], s, w => some (.ok s w)
  | c :: cs, s, w =>
    match rc s c w with
    | none => none
    | some (.fail e s' w') => some (.fail e s' w')
    | some (.ok s' w') => run_body rc cs s' w'

/-- The `while cur != Wrapping(0)` loop of the `LoopEnd` arm (src/src/lib.rs
lines 338-347): test the current cell, poll the stop channel, replay the body,
re-read the cell; fuel bounds the number of iterations. -/
def run_loop (rc : State → Command → InOuter → Option Outcome) :
    Nat → List Command → State → InOuter → Option Outcome
  | 0, _, _, _ => none
  | fuel + 1, cmds, s, w =>
    if s.get_cur = 0 then some (.ok s w)
    else
      match s.try_recv with
      | (true, s') => some (.fail .Stopped s' w)
      | (false, s') =>
        match run_body rc cmds s' w with
        | none => none
        | some (.fail e s'' w') => some (.fail e s'' w')
        | some (.ok s'' w') => run_loop rc fuel cmds s'' w'

/-- Source `run_command` (src/src/lib.rs lines 330-374), fuel-indexed. The match arms
mirror the source's order: `LoopEnd` (by nesting 0 / 1 / deeper), `LoopBegin`,
the `cmd if state.loop_nesting > 0` buffering guard, then the six immediate
commands. Cell writes reduce modulo 256 (`Wrapping<u8>`); `-=1` is `+255`. -/
def run_command : Nat → State → Command → InOuter → Option Outcome
  | 0, _, _, _ => none
  | fuel + 1, s, cmd, w =>
    match cmd with
    | .LoopEnd =>
      match s.loop_nesting with
      | 0 => some (.fail .NoLoopStarted s w)
      | 1 =>
        let cmds := s.ongoing_loops
        let s' := { s with loop_nesting := 0, ongoing_loops := [] }
        run_loop (run_command fuel) fuel cmds s' w
      | n + 2 =>
        some (.ok { s with loop_nesting := n + 1,
                           ongoing_loops := s.ongoing_loops ++ [.LoopEnd] } w)
    | .LoopBegin =>
      let s' := { s with loop_nesting := s.loop_nesting + 1 }
      if 1 < s'.loop_nesting then
        some (.ok { s' with ongoing_loops := s'.ongoing_loops ++ [.LoopBegin] } w)
      else
        some (.ok s' w)
    | .PtrIncr =>
      if 0 < s.loop_nesting then
        some (.ok { s with ongoing_loops := s.ongoing_loops ++ [.PtrIncr] } w)
      else
        match s.pointer_add with
        | .ok s' => some (.ok s' w)
        | .error e => some (.fail e s w)
    | .PtrDecr =>
      if 0 < s.loop_nesting then
        some (.ok { s with ongoing_loops := s.ongoing_loops ++ [.PtrDecr] } w)
      else
        match s.pointer_sub with
        | .ok s' => some (.ok s' w)
        | .error e => some (.fail e s w)
    | .Incr =>
      if 0 < s.loop_nesting then
        some (.ok { s with ongoing_loops := s.ongoing_loops ++ [.Incr] } w)
      else
        some (.ok (s.modify_cur (fun v => (v + 1) % 256)) w)
    | .Decr =>
      if 0 < s.loop_nesting then
        some (.ok { s with ongoing_loops := s.ongoing_loops ++ [.Decr] } w)
      else
        some (.ok (s.modify_cur (fun v => (v + 255) % 256)) w)
    | .Out =>
      if 0 < s.loop_nesting then
        some (.ok { s with ongoing_loops := s.ongoing_loops ++ [.Out] } w)
      else
        some (.ok s { w with o := w.o ++ [s.get_cur] })
    | .In =>
      if 0 < s.loop_nesting then
        some (.ok { s with ongoing_loops := s.ongoing_loops ++ [.In] } w)
      else
        match w.i with
        | [] => some (.fail .IoError s w)
        | b :: rest => some (.ok (s.modify_cur (fun _ => b)) { w with i := rest })

/-- Source `run_with_state` (src/src/lib.rs lines 305-326): for each source byte, poll
the stop channel, decode the byte, dispatch the instruction if any; comment
bytes are dropped after the poll. -/
def run_with_state (fuel : Nat) : List Nat → State → InOuter → Option Outcome
  | [], s, w => some (.ok s w)
  | b :: bs, s, w =>
    match s.try_recv with
    | (true, s') => some (.fail .Stopped s' w)
    | (false, s') =>
      match Command.from_byte b with
      | none => run_with_state fuel bs s' w
      | some cmd =>
        match run_command fuel s' cmd w with
        | none => none
        | some (.fail e s'' w') => some (.fail e s'' w')
        | some (.ok s'' w') => run_with_state fuel bs s'' w'

/-- Iterated `pointer_add`: advance the pointer `n` times. -/
def advanceN : Nat → State → Except Error State
  | 0, s => .ok s
  | n + 1, s =>
    match s.pointer_add with
    | .ok s' => advanceN n s'
    | .error e => .error e

/-- The invariant of claim C8: the pending buffer is empty whenever the nesting
counter is 0. -/
def BufInv (s : State) : Prop :=
  s.loop_nesting = 0 → s.ongoing_loops = []

instance (s : State) : Decidable (BufInv s) := by
  unfold BufInv; infer_instance

/-- Byte encoding of the program `++>+++++[<+>-]` from the spec's end-to-end
test. -/
def prog757 : List Nat := [43, 43, 62, 43, 43, 43, 43, 43, 91, 60, 43, 62, 45, 93]

lemma getD_set_self (l : List Nat) (p v : Nat) (h : p < l.length) :
    (l.set p v).getD p 0 = v := by
  induction l generalizing p with
  | nil => simp at h
  | cons a t ih =>
    cases p with
    | zero => rfl
    | succ q => simpa using ih q (by simpa using h)

lemma lt_length_ensure_len (c : List Nat) (p : Nat) : p < (ensure_len c p).length := by
  unfold ensure_len
  split
  · rename_i h; simp; omega
  · rename_i h; omega

lemma getD_ensure_len (c : List Nat) (p : Nat) :
    (ensure_len c p).getD p 0 = c.getD p 0 := by
  unfold ensure_len
  split
  · rename_i h
    rw [List.getD_eq_getElem?_getD, List.getD_eq_getElem?_getD]
    rw [List.getElem?_append_right h]
    rw [List.getElem?_replicate]
    rw [if_pos (by omega)]
    rw [List.getElem?_eq_none h]
    rfl
  · rfl

/-- Reading back the written cell: `modify_cur` really applies `f` to the
current cell. -/
lemma modify_cur_get_cur (s : State) (f : Nat → Nat) :
    (s.modify_cur f).get_cur = f s.get_cur := by
  unfold State.modify_cur State.get_cur
  simp only
  rw [getD_set_self _ _ _ (lt_length_ensure_len s.cells s.cell_pointer)]
  rw [getD_ensure_len]

lemma modify_cur_frame (s : State) (f : Nat → Nat) :
    (s.modify_cur f).cell_pointer = s.cell_pointer ∧
    (s.modify_cur f).loop_nesting = s.loop_nesting ∧
    (s.modify_cur f).ongoing_loops = s.ongoing_loops ∧
    (s.modify_cur f).stops = s.stops := by
  refine ⟨rfl, rfl, rfl, rfl⟩

/-- A successful `pointer_add` only moves the pointer. -/
lemma pointer_add_frame (s s' : State) (h : s.pointer_add = .ok s') :
    s'.cells = s.cells ∧ s'.loop_nesting = s.loop_nesting ∧
    s'.ongoing_loops = s.ongoing_loops ∧ s'.stops = s.stops := by
  simp only [State.pointer_add] at h
  split at h
  · injection h with h; subst h; exact ⟨rfl, rfl, rfl, rfl⟩
  · split at h
    · simp at h
    · injection h with h; subst h; exact ⟨rfl, rfl, rfl, rfl⟩
  · split at h
    · simp at h
    · split at h
      · simp at h
      · injection h with h; subst h; exact ⟨rfl, rfl, rfl, rfl⟩

/-- A successful `pointer_sub` only moves the pointer. -/
lemma pointer_sub_frame (s s' : State) (h : s.pointer_sub = .ok s') :
    s'.cells = s.cells ∧ s'.loop_nesting = s.loop_nesting ∧
    s'.ongoing_loops = s.ongoing_loops ∧ s'.stops = s.stops := by
  simp only [State.pointer_sub] at h
  split at h
  · split at h
    · injection h with h; subst h; exact ⟨rfl, rfl, rfl, rfl⟩
    · simp at h
  · injection h with h; subst h; exact ⟨rfl, rfl, rfl, rfl⟩

lemma state_ok (s : State) (w : InOuter) : (Outcome.ok s w).state = s := rfl

lemma state_fail (e : Error) (s : State) (w : InOuter) :
    (Outcome.fail e s w).state = s := rfl

/-- Replay helper: `run_body` preserves any property of the outcome state that its dispatcher
preserves. -/
lemma run_body_bufInv (rc : State → Command → InOuter → Option Outcome)
    (hrc : ∀ s c w out, BufInv s → rc s c w = some out → BufInv out.state) :
    ∀ cmds s w out, BufInv s → run_body rc cmds s w = some out → BufInv out.state := by
  intro cmds
  induction cmds with
  | nil =>
    intro s w out hs h
    simp only [run_body] at h
    injection h with h
    subst h
    exact hs
  | cons c cs ih =>
    intro s w out hs h
    simp only [run_body] at h
    rcases hc : rc s c w with _ | o
    · rw [hc] at h; cases h
    · rw [hc] at h
      cases o with
      | fail e s1 io1 =>
        injection h with h
        subst h
        exact hrc s c w (.fail e s1 io1) hs hc
      | ok s1 io1 =>
        exact ih s1 io1 out (hrc s c w (.ok s1 io1) hs hc) h

/-- Loop helper: `run_loop` preserves the pending-buffer invariant when its dispatcher
does. -/
lemma run_loop_bufInv (rc : State → Command → InOuter → Option Outcome)
    (hrc : ∀ s c w out, BufInv s → rc s c w = some out → BufInv out.state) :
    ∀ f cmds s w out, BufInv s → run_loop rc f cmds s w = some out → BufInv out.state := by
  intro f
  induction f with
  | zero => intro cmds s w out hs h; cases h
  | succ f ih =>
    intro cmds s w out hs h
    simp only [run_loop] at h
    split at h
    · injection h with h; subst h; exact hs
    · by_cases hst : 0 < s.stops
      · simp only [State.try_recv, if_pos hst] at h
        injection h with h
        subst h
        intro hz
        exact hs hz
      · simp only [State.try_recv, if_neg hst] at h
        rcases hc : run_body rc cmds s w with _ | o
        · rw [hc] at h; cases h
        · rw [hc] at h
          cases o with
          | fail e s1 io1 =>
            injection h with h
            subst h
            exact run_body_bufInv rc hrc cmds s w (.fail e s1 io1) hs hc
          | ok s1 io1 =>
            exact ih cmds s1 io1 out
              (run_body_bufInv rc hrc cmds s w (.ok s1 io1) hs hc) h

/-- Every dispatch step of `run_command` preserves the invariant that the
pending buffer is empty whenever the nesting counter is 0. -/
lemma run_command_bufInv :
    ∀ fuel s cmd w out, BufInv s → run_command fuel s cmd w = some out →
      BufInv out.state := by
  intro fuel
  induction fuel with
  | zero => intro s cmd w out _ h; cases h
  | succ f ih =>
    intro s cmd w out hs h
    cases cmd with
    | LoopEnd =>
      simp only [run_command] at h
      rcases hn : s.loop_nesting with _ | n
      · rw [hn] at h
        injection h with h; subst h; exact hs
      · cases n with
        | zero =>
          rw [hn] at h
          refine run_loop_bufInv (run_command f) ih f s.ongoing_loops _ w out ?_ h
          intro _; rfl
        | succ m =>
          rw [hn] at h
          injection h with h; subst h
          intro hz
          simp only [state_ok] at hz
          exact absurd hz (by simp)
    | LoopBegin =>
      simp only [run_command] at h
      split at h <;>
        (injection h with h; subst h; intro hz;
         simp only [state_ok] at hz;
         exact absurd hz (by simp))
    | PtrIncr =>
      simp only [run_command] at h
      split at h
      · injection h with h; subst h
        rename_i hpos
        intro hz
        simp only [state_ok] at hz
        exact absurd hz (by omega)
      · rcases ha : s.pointer_add with e | s1
        · rw [ha] at h
          injection h with h; subst h; exact hs
        · rw [ha] at h
          injection h with h; subst h
          obtain ⟨_, hnn, hl, _⟩ := pointer_add_frame s s1 ha
          intro hz
          simp only [state_ok] at hz ⊢
          rw [hl]
          exact hs (hnn ▸ hz)
    | PtrDecr =>
      simp only [run_command] at h
      split at h
      · injection h with h; subst h
        rename_i hpos
        intro hz
        simp only [state_ok] at hz
        exact absurd hz (by omega)
      · rcases ha : s.pointer_sub with e | s1
        · rw [ha] at h
          injection h with h; subst h; exact hs
        · rw [ha] at h
          injection h with h; subst h
          obtain ⟨_, hnn, hl, _⟩ := pointer_sub_frame s s1 ha
          intro hz
          simp only [state_ok] at hz ⊢
          rw [hl]
          exact hs (hnn ▸ hz)
    | Incr =>
      simp only [run_command] at h
      split at h
      · injection h with h; subst h
        rename_i hpos
        intro hz
        simp only [state_ok] at hz
        exact absurd hz (by omega)
      · injection h with h; subst h
        intro hz
        exact hs hz
    | Decr =>
      simp only [run_command] at h
      split at h
      · injection h with h; subst h
        rename_i hpos
        intro hz
        simp only [state_ok] at hz
        exact absurd hz (by omega)
      · injection h with h; subst h
        intro hz
        exact hs hz
    | Out =>
      simp only [run_command] at h
      split at h
      · injection h with h; subst h
        rename_i hpos
        intro hz
        simp only [state_ok] at hz
        exact absurd hz (by omega)
      · injection h with h; subst h
        exact hs
    | In =>
      simp only [run_command] at h
      split at h
      · injection h with h; subst h
        rename_i hpos
        intro hz
        simp only [state_ok] at hz
        exact absurd hz (by omega)
      · rcases hi : w.i with _ | ⟨b, rest⟩
        · rw [hi] at h
          injection h with h; subst h; exact hs
        · rw [hi] at h
          injection h with h; subst h
          intro hz
          exact hs hz

/-- Under a wrapping limit `n`, `k` pointer advances move the pointer to
`(start + k) % n`. -/
lemma advanceN_wrap (n : Nat) (hn : 0 < n) (hnU : n < USIZE) :
    ∀ (k : Nat) (s : State), s.cells_limit = ⟨some (n, true)⟩ → s.cell_pointer < n →
      advanceN k s = .ok { s with cell_pointer := (s.cell_pointer + k) % n } := by
  intro k
  induction k with
  | zero =>
    intro s _ hp
    simp only [advanceN]
    have h0 : (s.cell_pointer + 0) % n = s.cell_pointer := by
      rw [Nat.add_zero]
      exact Nat.mod_eq_of_lt hp
    rw [h0]
  | succ k ih =>
    intro s hl hp
    have hadd : s.pointer_add =
        .ok { s with cell_pointer := (s.cell_pointer + 1) % n } := by
      simp only [State.pointer_add, hl]
      rw [Nat.mod_eq_of_lt (show s.cell_pointer + 1 < USIZE by omega)]
    simp only [advanceN, hadd]
    rw [ih { s with cell_pointer := (s.cell_pointer + 1) % n } hl
      (Nat.mod_lt _ hn)]
    have h2 : ((s.cell_pointer + 1) % n + k) % n = (s.cell_pointer + (k + 1)) % n := by
      rw [Nat.mod_add_mod]
      congr 1
      omega
    rw [h2]

/-- With a stop request pending, the per-byte poll of `run_with_state` fires
before the byte is even decoded: the run fails with `Stopped`, consuming one
pending request and touching nothing else. -/
lemma run_with_state_stop (s : State) (h : 0 < s.stops) (fuel b : Nat)
    (bs : List Nat) (w : InOuter) :
    run_with_state fuel (b :: bs) s w =
      some (.fail .Stopped { s with stops := s.stops - 1 } w) := by
  simp [run_with_state, State.try_recv, h]

/-- With a stop request pending, the per-iteration poll of the loop engine
fires before the body is replayed: the loop fails with `Stopped`, consuming
one pending request and touching nothing else. -/
lemma run_loop_stop (s : State) (h : 0 < s.stops)
    (rc : State → Command → InOuter → Option Outcome) (f : Nat)
    (cmds : List Command) (w : InOuter) (hc : s.get_cur ≠ 0) :
    run_loop rc (f + 1) cmds s w =
      some (.fail .Stopped { s with stops := s.stops - 1 } w) := by
  simp [run_loop, State.try_recv, hc, h]

/-- Claim C2: once the cancellation slot has been set (a stop request is
pending on the channel), the next poll the engine performs — whether the
per-source-byte poll of `run_with_state` or the per-iteration poll of the loop
engine — observes it and the run halts at once with `Stopped`; a single
request therefore suffices to halt the run permanently (no further
instruction is dispatched after the observing poll). -/
theorem cancellation_single_request_halts (s : State) (h : 0 < s.stops) :
    (∀ fuel b bs w, run_with_state fuel (b :: bs) s w =
        some (.fail .Stopped { s with stops := s.stops - 1 } w)) ∧
    (∀ rc f cmds w, s.get_cur ≠ 0 →
        run_loop rc (f + 1) cmds s w =
          some (.fail .Stopped { s with stops := s.stops - 1 } w)) :=
  ⟨fun fuel b bs w => run_with_state_stop s h fuel b bs w,
   fun rc f cmds w hc => run_loop_stop s h rc f cmds w hc⟩

/-- Witness for C2 at concrete inputs. -/
theorem cancellation_single_request_halts_witness :
    run_with_state 1 [43] { State.default with stops := 1 } ⟨[], []⟩ =
      some (.fail .Stopped State.default ⟨[], []⟩) ∧
    run_loop (run_command 0) 1 [] { State.default with cells := [1], stops := 1 }
        ⟨[], []⟩ =
      some (.fail .Stopped { State.default with cells := [1] } ⟨[], []⟩) :=
  ⟨(cancellation_single_request_halts { State.default with stops := 1 }
      (by decide)).1 1 43 [] ⟨[], []⟩,
   (cancellation_single_request_halts
      { State.default with cells := [1], stops := 1 } (by decide)).2
      (run_command 0) 0 [] ⟨[], []⟩ (by decide)⟩

/-- Claim C6: a cancellation signal pending before any instruction of a run
executes makes the run return `Stopped` with the tape, pointer, nesting
counter, pending buffer and output all unchanged; a signal pending at a loop
iteration boundary halts the loop with `Stopped` before the next pass of the
body, leaving the state exactly as of the last completed iteration. -/
theorem cancellation_no_side_effects (s : State) (w : InOuter) (h : 0 < s.stops) :
    (∀ fuel b bs, ∃ s' : State,
        run_with_state fuel (b :: bs) s w = some (.fail .Stopped s' w) ∧
        s'.cells = s.cells ∧ s'.cell_pointer = s.cell_pointer ∧
        s'.loop_nesting = s.loop_nesting ∧ s'.ongoing_loops = s.ongoing_loops) ∧
    (∀ rc f cmds, s.get_cur ≠ 0 → ∃ s' : State,
        run_loop rc (f + 1) cmds s w = some (.fail .Stopped s' w) ∧
        s'.cells = s.cells ∧ s'.cell_pointer = s.cell_pointer ∧
        s'.loop_nesting = s.loop_nesting ∧ s'.ongoing_loops = s.ongoing_loops) := by
  constructor
  · intro fuel b bs
    exact ⟨{ s with stops := s.stops - 1 }, run_with_state_stop s h fuel b bs w,
      rfl, rfl, rfl, rfl⟩
  · intro rc f cmds hc
    exact ⟨{ s with stops := s.stops - 1 }, run_loop_stop s h rc f cmds w hc,
      rfl, rfl, rfl, rfl⟩

/-- Witness for C6 at concrete inputs. -/
theorem cancellation_no_side_effects_witness :
    (∃ s' : State,
      run_with_state 1 [43] { State.default with stops := 1 } ⟨[], []⟩ =
        some (.fail .Stopped s' ⟨[], []⟩) ∧
      s'.cells = [0] ∧ s'.cell_pointer = 0 ∧ s'.loop_nesting = 0 ∧
      s'.ongoing_loops = []) ∧
    (∃ s' : State,
      run_loop (run_command 0) 1 []
          { State.default with cells := [1], stops := 1 } ⟨[], []⟩ =
        some (.fail .Stopped s' ⟨[], []⟩) ∧
      s'.cells = [1] ∧ s'.cell_pointer = 0 ∧ s'.loop_nesting = 0 ∧
      s'.ongoing_loops = []) :=
  ⟨(cancellation_no_side_effects { State.default with stops := 1 } ⟨[], []⟩
      (by decide)).1 1 43 [],
   (cancellation_no_side_effects { State.default with cells := [1], stops := 1 }
      ⟨[], []⟩ (by decide)).2 (run_command 0) 0 [] (by decide)⟩

/-- Claim C10 counterexample: the engine also polls the cancellation slot away
from the per-source-byte points. Dispatching the single buffered-loop close on
a state whose current cell is 1 with a stop request pending yields `Stopped`
from inside `run_command` itself — a poll that is not tied to consuming a
source byte, contradicting "once per source byte ... and only then". -/
theorem poll_inside_loop_replay :
    run_command 2 { State.default with cells := [1], loop_nesting := 1, stops := 1 }
        .LoopEnd ⟨[], []⟩ =
      some (.fail .Stopped { State.default with cells := [1] } ⟨[], []⟩) := by
  decide

/-- Claim C10 (amended): `run_with_state` polls exactly once per source byte,
before decoding it (comment bytes included), and the loop engine additionally
polls once per iteration before each replay of a body; on an empty source
stream `run_with_state` returns success without ever polling, so a
cancellation signal pending before an empty program runs is not observed and
does not yield `Stopped`. -/
theorem poll_per_byte_and_per_iteration :
    (∀ fuel (s : State) w, run_with_state fuel [] s w = some (.ok s w)) ∧
    (∀ fuel (s : State) b bs w, 0 < s.stops →
        run_with_state fuel (b :: bs) s w =
          some (.fail .Stopped { s with stops := s.stops - 1 } w)) ∧
    (∀ fuel (s : State) b bs w, s.stops = 0 → Command.from_byte b = none →
        run_with_state fuel (b :: bs) s w = run_with_state fuel bs s w) ∧
    (∀ rc f cmds (s : State) w, 0 < s.stops → s.get_cur ≠ 0 →
        run_loop rc (f + 1) cmds s w =
          some (.fail .Stopped { s with stops := s.stops - 1 } w)) := by
  refine ⟨?_, ?_, ?_, ?_⟩
  · intro fuel s w
    simp [run_with_state]
  · intro fuel s b bs w h
    exact run_with_state_stop s h fuel b bs w
  · intro fuel s b bs w h0 hb
    simp [run_with_state, State.try_recv, h0, hb]
  · intro rc f cmds s w h hc
    exact run_loop_stop s h rc f cmds w hc

/-- Witness for the amended C10 at concrete inputs; the first conjunct shows a
pending signal on an empty program is not observed. -/
theorem poll_per_byte_and_per_iteration_witness :
    run_with_state 1 [] { State.default with stops := 1 } ⟨[], []⟩ =
      some (.ok { State.default with stops := 1 } ⟨[], []⟩) ∧
    run_with_state 1 [97] { State.default with stops := 1 } ⟨[], []⟩ =
      some (.fail .Stopped State.default ⟨[], []⟩) ∧
    run_with_state 1 [97] State.default ⟨[], []⟩ =
      run_with_state 1 [] State.default ⟨[], []⟩ ∧
    run_loop (run_command 0) 1 [.Incr]
        { State.default with cells := [1], stops := 1 } ⟨[], []⟩ =
      some (.fail .Stopped { State.default with cells := [1] } ⟨[], []⟩) :=
  ⟨(poll_per_byte_and_per_iteration).1 1 { State.default with stops := 1 } ⟨[], []⟩,
   (poll_per_byte_and_per_iteration).2.1 1 { State.default with stops := 1 } 97 []
     ⟨[], []⟩ (by decide),
   (poll_per_byte_and_per_iteration).2.2.1 1 State.default 97 [] ⟨[], []⟩ rfl
     (by decide),
   (poll_per_byte_and_per_iteration).2.2.2 (run_command 0) 0 [.Incr]
     { State.default with cells := [1], stops := 1 } ⟨[], []⟩ (by decide)
     (by decide)⟩

/-- Claim C3 counterexample: the error enum does not have exactly five
variants — `OutOfBounds` and `CellPointerOverflow` are two distinct
pointer-range variants, giving six in total. -/
theorem error_kind_count_ne_five : Fintype.card Error ≠ 5 := by decide

/-- Claim C3 (amended): the error type distinguishes exactly six failure
kinds — `Stopped`, `OutOfBounds` and `CellPointerOverflow` (two distinct
pointer-range variants), `NoLoopStarted` (unmatched close), `UnendedLoop`
(stream ended while loops were open) and `IoError` (wrapping the underlying
transport error). -/
theorem error_kind_count_eq_six :
    Fintype.card Error = 6 ∧ Error.OutOfBounds ≠ Error.CellPointerOverflow := by
  decide

/-- Claim C5: a `LoopEnd` dispatched at nesting 0 fails immediately with
`NoLoopStarted` (so the program consisting of the single byte `]` fails
mid-stream), while a `LoopBegin` never fails during stream consumption and an
unmatched open is reported as `UnendedLoop` only by the explicit `evaluate`
step (so the program `[` alone succeeds mid-stream and fails only on
finalization). -/
theorem unmatched_close_vs_unended_loop :
    (∀ fuel (s : State) w, s.loop_nesting = 0 →
      run_command (fuel + 1) s .LoopEnd w = some (.fail .NoLoopStarted s w)) ∧
    run_with_state 1 [93] State.default ⟨[], []⟩ =
      some (.fail .NoLoopStarted State.default ⟨[], []⟩) ∧
    (∀ fuel (s : State) w, ∃ s' : State,
      run_command (fuel + 1) s .LoopBegin w = some (.ok s' w)) ∧
    (∀ s : State, s.loop_nesting ≠ 0 → s.evaluate = .error .UnendedLoop) ∧
    (∃ s' : State,
      run_with_state 1 [91] State.default ⟨[], []⟩ = some (.ok s' ⟨[], []⟩) ∧
      s'.evaluate = .error .UnendedLoop) := by
  refine ⟨?_, by decide, ?_, ?_, ?_⟩
  · intro fuel s w h
    simp [run_command, h]
  · intro fuel s w
    by_cases h1 : 1 < s.loop_nesting + 1
    · refine ⟨{ s with loop_nesting := s.loop_nesting + 1, ongoing_loops := s.ongoing_loops ++ [.LoopBegin] }, ?_⟩
      simp only [run_command]
      rw [if_pos h1]
    · refine ⟨{ s with loop_nesting := s.loop_nesting + 1 }, ?_⟩
      simp only [run_command]
      rw [if_neg h1]
  · intro s h
    simp [State.evaluate, h]
  · exact ⟨{ State.default with loop_nesting := 1 }, by decide, by rfl⟩

/-- Witness for C5 at concrete inputs. -/
theorem unmatched_close_vs_unended_loop_witness :
    run_command 1 State.default .LoopEnd ⟨[], []⟩ =
      some (.fail .NoLoopStarted State.default ⟨[], []⟩) ∧
    ({ State.default with loop_nesting := 1 } : State).evaluate =
      .error .UnendedLoop :=
  ⟨(unmatched_close_vs_unended_loop).1 0 State.default ⟨[], []⟩ rfl,
   (unmatched_close_vs_unended_loop).2.2.2.1
     { State.default with loop_nesting := 1 } (by simp [State.default])⟩

/-- Claim C7: the program `++>+++++[<+>-]` run on a fresh state (all-zero
unbounded tape, pointer 0) terminates successfully with cell 0 = 7,
cell 1 = 0 and the pointer at 1; finalization succeeds with tape `[7, 0]`. -/
theorem program_seven_run :
    ∃ s : State,
      run_with_state 9 prog757 State.default ⟨[], []⟩ = some (.ok s ⟨[], []⟩) ∧
      s.cells.getD 0 0 = 7 ∧ s.cells.getD 1 0 = 0 ∧ s.cell_pointer = 1 ∧
      s.evaluate = .ok [7, 0] :=
  ⟨{ cells := [7, 0], cells_limit := ⟨none⟩, cell_pointer := 1,
     ongoing_loops := [], loop_nesting := 0, stops := 0 },
   by decide, by decide, by decide, by decide, by rfl⟩

/-- Claim C8: every dispatch step preserves the invariant that the pending
buffer is empty whenever the nesting counter is 0 (instructions are buffered
only while the counter is positive, and the close that returns the counter to
0 takes the whole buffer, leaving it empty). -/
theorem buffer_empty_when_nesting_zero (fuel : Nat) (s : State) (cmd : Command)
    (w : InOuter) (out : Outcome) (hs : BufInv s)
    (h : run_command fuel s cmd w = some out) : BufInv out.state :=
  run_command_bufInv fuel s cmd w out hs h

/-- Witness for C8 at a concrete dispatch step. -/
theorem buffer_empty_when_nesting_zero_witness :
    BufInv State.default ∧
    run_command 1 State.default .Incr ⟨[], []⟩ =
      some (.ok { State.default with cells := [1] } ⟨[], []⟩) ∧
    BufInv (Outcome.state (.ok { State.default with cells := [1] } ⟨[], []⟩)) :=
  ⟨by decide, by decide,
   buffer_empty_when_nesting_zero 1 State.default .Incr ⟨[], []⟩
     (.ok { State.default with cells := [1] } ⟨[], []⟩) (by decide) (by decide)⟩

/-- Claim C9: cell increment and decrement never produce an error (at positive
nesting they are buffered, at nesting 0 they rewrite the current cell modulo
256), incrementing a cell holding 255 yields 0, and decrementing a cell
holding 0 yields 255. -/
theorem cell_arith_mod256 (fuel : Nat) (s : State) (w : InOuter) :
    (∃ s' : State, run_command (fuel + 1) s .Incr w = some (.ok s' w)) ∧
    (∃ s' : State, run_command (fuel + 1) s .Decr w = some (.ok s' w)) ∧
    (s.loop_nesting = 0 →
      (∃ s' : State, run_command (fuel + 1) s .Incr w = some (.ok s' w) ∧
        s'.get_cur = (s.get_cur + 1) % 256) ∧
      (∃ s' : State, run_command (fuel + 1) s .Decr w = some (.ok s' w) ∧
        s'.get_cur = (s.get_cur + 255) % 256)) ∧
    (s.loop_nesting = 0 → s.get_cur = 255 →
      ∃ s' : State, run_command (fuel + 1) s .Incr w = some (.ok s' w) ∧
        s'.get_cur = 0) ∧
    (s.loop_nesting = 0 → s.get_cur = 0 →
      ∃ s' : State, run_command (fuel + 1) s .Decr w = some (.ok s' w) ∧
        s'.get_cur = 255) := by
  have hnest : ∀ h0 : ¬ 0 < s.loop_nesting,
      run_command (fuel + 1) s .Incr w =
        some (.ok (s.modify_cur (fun v => (v + 1) % 256)) w) := by
    intro h0
    simp only [run_command]
    rw [if_neg h0]
  have hnest' : ∀ h0 : ¬ 0 < s.loop_nesting,
      run_command (fuel + 1) s .Decr w =
        some (.ok (s.modify_cur (fun v => (v + 255) % 256)) w) := by
    intro h0
    simp only [run_command]
    rw [if_neg h0]
  refine ⟨?_, ?_, ?_, ?_, ?_⟩
  · by_cases h0 : 0 < s.loop_nesting
    · refine ⟨{ s with ongoing_loops := s.ongoing_loops ++ [.Incr] }, ?_⟩
      simp only [run_command]
      rw [if_pos h0]
    · exact ⟨s.modify_cur (fun v => (v + 1) % 256), hnest h0⟩
  · by_cases h0 : 0 < s.loop_nesting
    · refine ⟨{ s with ongoing_loops := s.ongoing_loops ++ [.Decr] }, ?_⟩
      simp only [run_command]
      rw [if_pos h0]
    · exact ⟨s.modify_cur (fun v => (v + 255) % 256), hnest' h0⟩
  · intro hz
    constructor
    · exact ⟨s.modify_cur (fun v => (v + 1) % 256), hnest (by omega),
        modify_cur_get_cur s _⟩
    · exact ⟨s.modify_cur (fun v => (v + 255) % 256), hnest' (by omega),
        modify_cur_get_cur s _⟩
  · intro hz h255
    refine ⟨s.modify_cur (fun v => (v + 1) % 256), hnest (by omega), ?_⟩
    rw [modify_cur_get_cur, h255]
  · intro hz h0
    refine ⟨s.modify_cur (fun v => (v + 255) % 256), hnest' (by omega), ?_⟩
    rw [modify_cur_get_cur, h0]

/-- Witness for C9 at concrete inputs: cells holding 255 and 0. -/
theorem cell_arith_mod256_witness :
    (∃ s' : State,
      run_command 1 { State.default with cells := [255] } .Incr ⟨[], []⟩ =
        some (.ok s' ⟨[], []⟩) ∧ s'.get_cur = 0) ∧
    (∃ s' : State,
      run_command 1 State.default .Decr ⟨[], []⟩ = some (.ok s' ⟨[], []⟩) ∧
        s'.get_cur = 255) :=
  ⟨(cell_arith_mod256 0 { State.default with cells := [255] } ⟨[], []⟩).2.2.2.1
     rfl (by decide),
   (cell_arith_mod256 0 State.default ⟨[], []⟩).2.2.2.2 rfl (by decide)⟩

/-- Claim C1: the loop engine is a state machine over the nesting counter.
`LoopBegin` at counter 0 sets the counter to 1 without buffering; `LoopBegin`
at counter > 0 increments the counter and appends `LoopBegin` to the pending
buffer; `LoopEnd` at counter > 1 decrements the counter and appends `LoopEnd`;
any other instruction at counter > 0 is appended to the buffer without being
executed; `LoopEnd` at counter 1 resets the counter to 0, takes the pending
buffer (leaving it empty) as the loop body and enters the replay loop, which
while the current cell is nonzero polls the stop channel and replays every
body instruction in order through the same dispatcher (`run_command`, at one
fuel less), re-reading the current cell after each full pass. -/
theorem loop_engine_state_machine (fuel : Nat) (s : State) (w : InOuter) :
    (s.loop_nesting = 0 →
      run_command (fuel + 1) s .LoopBegin w =
        some (.ok { s with loop_nesting := 1 } w)) ∧
    (0 < s.loop_nesting →
      run_command (fuel + 1) s .LoopBegin w =
        some (.ok { s with loop_nesting := s.loop_nesting + 1, ongoing_loops := s.ongoing_loops ++ [.LoopBegin] } w)) ∧
    (1 < s.loop_nesting →
      run_command (fuel + 1) s .LoopEnd w =
        some (.ok { s with loop_nesting := s.loop_nesting - 1, ongoing_loops := s.ongoing_loops ++ [.LoopEnd] } w)) ∧
    (∀ cmd : Command, cmd ≠ .LoopBegin → cmd ≠ .LoopEnd → 0 < s.loop_nesting →
      run_command (fuel + 1) s cmd w =
        some (.ok { s with ongoing_loops := s.ongoing_loops ++ [cmd] } w)) ∧
    (s.loop_nesting = 1 →
      run_command (fuel + 1) s .LoopEnd w =
        run_loop (run_command fuel) fuel s.ongoing_loops
          { s with loop_nesting := 0, ongoing_loops := [] } w) ∧
    (∀ rc f cmds, s.get_cur = 0 → run_loop rc (f + 1) cmds s w = some (.ok s w)) ∧
    (∀ rc f cmds, s.get_cur ≠ 0 → s.stops = 0 →
      (run_body rc cmds s w = none → run_loop rc (f + 1) cmds s w = none) ∧
      (∀ e s' w', run_body rc cmds s w = some (.fail e s' w') →
        run_loop rc (f + 1) cmds s w = some (.fail e s' w')) ∧
      (∀ s' w', run_body rc cmds s w = some (.ok s' w') →
        run_loop rc (f + 1) cmds s w = run_loop rc f cmds s' w')) ∧
    (∀ rc, run_body rc [] s w = some (.ok s w)) ∧
    (∀ rc c cs,
      (rc s c w = none → run_body rc (c :: cs) s w = none) ∧
      (∀ e s' w', rc s c w = some (.fail e s' w') →
        run_body rc (c :: cs) s w = some (.fail e s' w')) ∧
      (∀ s' w', rc s c w = some (.ok s' w') →
        run_body rc (c :: cs) s w = run_body rc cs s' w')) := by
  refine ⟨?_, ?_, ?_, ?_, ?_, ?_, ?_, ?_, ?_⟩
  · intro h
    simp [run_command, h]
  · intro h
    simp only [run_command]
    rw [if_pos (by omega)]
  · intro h
    obtain ⟨m, hm⟩ : ∃ m, s.loop_nesting = m + 2 := ⟨s.loop_nesting - 2, by omega⟩
    simp [run_command, hm]
  · intro cmd h1 h2 h3
    cases cmd <;>
      first
        | exact absurd rfl h1
        | exact absurd rfl h2
        | (simp only [run_command]; rw [if_pos h3])
  · intro h
    simp [run_command, h]
  · intro rc f cmds h
    simp [run_loop, h]
  · intro rc f cmds h1 h2
    refine ⟨?_, ?_, ?_⟩
    · intro hc
      simp [run_loop, State.try_recv, h1, h2, hc]
    · intro e s' w' hc
      simp [run_loop, State.try_recv, h1, h2, hc]
    · intro s' w' hc
      simp [run_loop, State.try_recv, h1, h2, hc]
  · intro rc
    rfl
  · intro rc c cs
    refine ⟨?_, ?_, ?_⟩
    · intro hc
      simp [run_body, hc]
    · intro e s' w' hc
      simp [run_body, hc]
    · intro s' w' hc
      simp [run_body, hc]

/-- Witness for C1: each transition of the state machine exercised at a
concrete input. -/
theorem loop_engine_state_machine_witness :
    run_command 1 State.default .LoopBegin ⟨[], []⟩ =
      some (.ok { State.default with loop_nesting := 1 } ⟨[], []⟩) ∧
    run_command 1 { State.default with loop_nesting := 1 } .LoopBegin ⟨[], []⟩ =
      some (.ok { State.default with loop_nesting := 2, ongoing_loops := [.LoopBegin] } ⟨[], []⟩) ∧
    run_command 1 { State.default with loop_nesting := 2 } .LoopEnd ⟨[], []⟩ =
      some (.ok { State.default with loop_nesting := 1, ongoing_loops := [.LoopEnd] } ⟨[], []⟩) ∧
    run_command 1 { State.default with loop_nesting := 1 } .Incr ⟨[], []⟩ =
      some (.ok { State.default with loop_nesting := 1, ongoing_loops := [.Incr] } ⟨[], []⟩) ∧
    run_command 1 { State.default with loop_nesting := 1 } .LoopEnd ⟨[], []⟩ =
      run_loop (run_command 0) 0 [] State.default ⟨[], []⟩ ∧
    run_loop (run_command 0) 1 [] State.default ⟨[], []⟩ =
      some (.ok State.default ⟨[], []⟩) ∧
    run_loop (fun _ _ _ => none) 1 [.Incr] { State.default with cells := [1] }
        ⟨[], []⟩ = none ∧
    run_loop (fun _ _ _ => some (.fail .IoError State.default ⟨[], []⟩)) 1 [.Incr]
        { State.default with cells := [1] } ⟨[], []⟩ =
      some (.fail .IoError State.default ⟨[], []⟩) ∧
    run_loop (run_command 1) 1 [.Decr] { State.default with cells := [1] }
        ⟨[], []⟩ =
      run_loop (run_command 1) 0 [.Decr] State.default ⟨[], []⟩ ∧
    run_body (run_command 0) [] State.default ⟨[], []⟩ =
      some (.ok State.default ⟨[], []⟩) ∧
    run_body (fun _ _ _ => none) [.Incr] State.default ⟨[], []⟩ = none ∧
    run_body (fun _ _ _ => some (.fail .IoError State.default ⟨[], []⟩)) [.Incr]
        State.default ⟨[], []⟩ =
      some (.fail .IoError State.default ⟨[], []⟩) ∧
    run_body (run_command 1) [.Incr] State.default ⟨[], []⟩ =
      run_body (run_command 1) [] { State.default with cells := [1] } ⟨[], []⟩ := by
  refine ⟨?_, ?_, ?_, ?_, ?_, ?_, ?_, ?_, ?_, ?_, ?_, ?_, ?_⟩
  · exact (loop_engine_state_machine 0 State.default ⟨[], []⟩).1 rfl
  · exact (loop_engine_state_machine 0 { State.default with loop_nesting := 1 }
      ⟨[], []⟩).2.1 (by decide)
  · exact (loop_engine_state_machine 0 { State.default with loop_nesting := 2 }
      ⟨[], []⟩).2.2.1 (by decide)
  · exact (loop_engine_state_machine 0 { State.default with loop_nesting := 1 }
      ⟨[], []⟩).2.2.2.1 .Incr (by decide) (by decide) (by decide)
  · exact (loop_engine_state_machine 0 { State.default with loop_nesting := 1 }
      ⟨[], []⟩).2.2.2.2.1 rfl
  · exact (loop_engine_state_machine 0 State.default ⟨[], []⟩).2.2.2.2.2.1
      (run_command 0) 0 [] rfl
  · exact ((loop_engine_state_machine 0 { State.default with cells := [1] }
      ⟨[], []⟩).2.2.2.2.2.2.1 (fun _ _ _ => none) 0 [.Incr] (by decide) rfl).1 rfl
  · exact ((loop_engine_state_machine 0 { State.default with cells := [1] }
      ⟨[], []⟩).2.2.2.2.2.2.1
      (fun _ _ _ => some (.fail .IoError State.default ⟨[], []⟩)) 0 [.Incr]
      (by decide) rfl).2.1 .IoError State.default ⟨[], []⟩ rfl
  · exact ((loop_engine_state_machine 1 { State.default with cells := [1] }
      ⟨[], []⟩).2.2.2.2.2.2.1 (run_command 1) 0 [.Decr] (by decide) rfl).2.2
      State.default ⟨[], []⟩ (by decide)
  · exact (loop_engine_state_machine 0 State.default ⟨[], []⟩).2.2.2.2.2.2.2.1
      (run_command 0)
  · exact ((loop_engine_state_machine 0 State.default ⟨[], []⟩).2.2.2.2.2.2.2.2
      (fun _ _ _ => none) .Incr []).1 rfl
  · exact ((loop_engine_state_machine 0 State.default ⟨[], []⟩).2.2.2.2.2.2.2.2
      (fun _ _ _ => some (.fail .IoError State.default ⟨[], []⟩)) .Incr []).2.1
      .IoError State.default ⟨[], []⟩ rfl
  · exact ((loop_engine_state_machine 1 State.default ⟨[], []⟩).2.2.2.2.2.2.2.2
      (run_command 1) .Incr []).2.2 { State.default with cells := [1] } ⟨[], []⟩
      (by decide)

/-- Claim C4: pointer moves follow the bounds policy. With no limit
(`Unbounded`), advance and retreat just increment or decrement the index and
fail only on `usize` overflow or underflow; with a wrapping limit
(`FixedWrap n`, pointer invariantly `< n`), the new index is `(index ± 1) % n`,
the move always succeeds, and `n` advances return the pointer to its start;
with a strict limit (`FixedStrict n`, pointer invariantly `< n`), the move
fails exactly when it would leave `[0, n)`, so advancing past `n - 1` fails. -/
theorem pointer_policy_correct (s : State) (n : Nat) (hn : 0 < n)
    (hnU : n < USIZE) :
    (s.cells_limit = ⟨none⟩ →
      ((s.cell_pointer + 1 < USIZE →
        s.pointer_add = .ok { s with cell_pointer := s.cell_pointer + 1 }) ∧
      (s.cell_pointer + 1 = USIZE →
        s.pointer_add = .error .CellPointerOverflow) ∧
      (0 < s.cell_pointer →
        s.pointer_sub = .ok { s with cell_pointer := s.cell_pointer - 1 }) ∧
      (s.cell_pointer = 0 →
        s.pointer_sub = .error .CellPointerOverflow))) ∧
    (s.cells_limit = ⟨some (n, true)⟩ → s.cell_pointer < n →
      (s.pointer_add = .ok { s with cell_pointer := (s.cell_pointer + 1) % n } ∧
      s.pointer_sub =
        .ok { s with cell_pointer := (s.cell_pointer + (n - 1)) % n } ∧
      advanceN n s = .ok s)) ∧
    (s.cells_limit = ⟨some (n, false)⟩ → s.cell_pointer < n →
      ((s.cell_pointer + 1 < n →
        s.pointer_add = .ok { s with cell_pointer := s.cell_pointer + 1 }) ∧
      (s.cell_pointer + 1 = n →
        s.pointer_add = .error .CellPointerOverflow) ∧
      (0 < s.cell_pointer →
        s.pointer_sub = .ok { s with cell_pointer := s.cell_pointer - 1 }) ∧
      (s.cell_pointer = 0 →
        s.pointer_sub = .error .CellPointerOverflow))) := by
  refine ⟨?_, ?_, ?_⟩
  · intro hl
    refine ⟨?_, ?_, ?_, ?_⟩
    · intro hlt
      simp only [State.pointer_add, hl]
      rw [if_neg (by omega), Nat.mod_eq_of_lt hlt]
    · intro heq
      simp only [State.pointer_add, hl]
      rw [if_pos (by omega)]
    · intro hpos
      simp only [State.pointer_sub, hl]
      rw [if_neg (by omega)]
    · intro hz
      simp only [State.pointer_sub, hl]
      rw [if_pos hz]
  · intro hl hp
    refine ⟨?_, ?_, ?_⟩
    · simp only [State.pointer_add, hl]
      rw [Nat.mod_eq_of_lt (show s.cell_pointer + 1 < USIZE by omega)]
    · simp only [State.pointer_sub, hl]
      by_cases hz : s.cell_pointer = 0
      · rw [if_pos hz]
        have : (s.cell_pointer + (n - 1)) % n = n - 1 := by
          rw [hz, Nat.zero_add]
          exact Nat.mod_eq_of_lt (by omega)
        rw [this]
      · rw [if_neg hz]
        have : (s.cell_pointer + (n - 1)) % n = s.cell_pointer - 1 := by
          rw [show s.cell_pointer + (n - 1) = (s.cell_pointer - 1) + 1 * n by omega]
          rw [Nat.add_mul_mod_self_right]
          exact Nat.mod_eq_of_lt (by omega)
        rw [this]
    · rw [advanceN_wrap n hn hnU n s hl hp]
      have : (s.cell_pointer + n) % n = s.cell_pointer := by
        rw [Nat.add_mod_right]
        exact Nat.mod_eq_of_lt hp
      rw [this]
  · intro hl hp
    refine ⟨?_, ?_, ?_, ?_⟩
    · intro hlt
      simp only [State.pointer_add, hl]
      rw [if_neg (by omega), if_neg (by rw [Nat.mod_eq_of_lt (by omega : s.cell_pointer + 1 < USIZE)]; omega), Nat.mod_eq_of_lt (by omega : s.cell_pointer + 1 < USIZE)]
    · intro heq
      simp only [State.pointer_add, hl]
      rw [if_neg (by omega), if_pos (by rw [Nat.mod_eq_of_lt (by omega : s.cell_pointer + 1 < USIZE)]; omega)]
    · intro hpos
      simp only [State.pointer_sub, hl]
      rw [if_neg (by omega)]
    · intro hz
      simp only [State.pointer_sub, hl]
      rw [if_pos hz]

/-- Witness for C4: each policy exercised at concrete states. -/
theorem pointer_policy_correct_witness :
    State.default.pointer_add = .ok { State.default with cell_pointer := 1 } ∧
    State.default.pointer_sub = .error .CellPointerOverflow ∧
    ({ State.default with cell_pointer := USIZE - 1 } : State).pointer_add =
      .error .CellPointerOverflow ∧
    ({ State.new ⟨some (3, true)⟩ with cell_pointer := 2 } : State).pointer_add =
      .ok { State.new ⟨some (3, true)⟩ with cell_pointer := 0 } ∧
    ({ State.new ⟨some (3, true)⟩ with cell_pointer := 0 } : State).pointer_sub =
      .ok { State.new ⟨some (3, true)⟩ with cell_pointer := 2 } ∧
    advanceN 3 { State.new ⟨some (3, true)⟩ with cell_pointer := 2 } =
      .ok { State.new ⟨some (3, true)⟩ with cell_pointer := 2 } ∧
    ({ State.new ⟨some (3, false)⟩ with cell_pointer := 1 } : State).pointer_add =
      .ok { State.new ⟨some (3, false)⟩ with cell_pointer := 2 } ∧
    ({ State.new ⟨some (3, false)⟩ with cell_pointer := 2 } : State).pointer_add =
      .error .CellPointerOverflow ∧
    ({ State.new ⟨some (3, false)⟩ with cell_pointer := 2 } : State).pointer_sub =
      .ok { State.new ⟨some (3, false)⟩ with cell_pointer := 1 } ∧
    (State.new ⟨some (3, false)⟩).pointer_sub = .error .CellPointerOverflow := by
  refine ⟨?_, ?_, ?_, ?_, ?_, ?_, ?_, ?_, ?_, ?_⟩
  · exact ((pointer_policy_correct State.default 1 (by decide) (by decide)).1
      rfl).1 (by decide)
  · exact ((pointer_policy_correct State.default 1 (by decide) (by decide)).1
      rfl).2.2.2 rfl
  · exact ((pointer_policy_correct { State.default with cell_pointer := USIZE - 1 }
      1 (by decide) (by decide)).1 rfl).2.1 (by decide)
  · exact ((pointer_policy_correct { State.new ⟨some (3, true)⟩ with cell_pointer := 2 }
      3 (by decide) (by decide)).2.1 rfl (by decide)).1
  · exact ((pointer_policy_correct { State.new ⟨some (3, true)⟩ with cell_pointer := 0 }
      3 (by decide) (by decide)).2.1 rfl (by decide)).2.1
  · exact ((pointer_policy_correct { State.new ⟨some (3, true)⟩ with cell_pointer := 2 }
      3 (by decide) (by decide)).2.1 rfl (by decide)).2.2
  · exact ((pointer_policy_correct { State.new ⟨some (3, false)⟩ with cell_pointer := 1 }
      3 (by decide) (by decide)).2.2 rfl (by decide)).1 (by decide)
  · exact ((pointer_policy_correct { State.new ⟨some (3, false)⟩ with cell_pointer := 2 }
      3 (by decide) (by decide)).2.2 rfl (by decide)).2.1 (by decide)
  · exact ((pointer_policy_correct { State.new ⟨some (3, false)⟩ with cell_pointer := 2 }
      3 (by decide) (by decide)).2.2 rfl (by decide)).2.2.1 (by decide)
  · exact ((pointer_policy_correct (State.new ⟨some (3, false)⟩)
      3 (by decide) (by decide)).2.2 rfl (by decide)).2.2.2 rfl

end BF
